import Mathlib

/-
Shallow embedding of the `rags` argument-parsing engine (src/lib.rs).

Tokens are modelled as lists of characters (`Token := List Char`); the
source's byte indexing coincides with character indexing on the ASCII
inputs the engine is specified over.  The `bit_set::BitSet` consumption
mask is modelled as an ascending `List Nat` of still-unclaimed positions
(`BitSet` iterates ascending; all updates are removals, which preserve
order).  The `BTreeMap<usize, BitSet>` of run masks is an association
list keyed by token position.  Typed construction (`T::FromStr`) is
modelled at `T = String`, where conversion is the identity and never
fails; mutation of caller storage is modelled by returning the new value
of the target alongside the parser.  The help printer is a write-only
external collaborator and is not modelled; the control flow around it
(schema-only early returns in help mode) is kept.  A Rust panic
(`unwrap` on `None`) is modelled by an `Option` result of `none`.
-/

set_option synthInstance.maxSize 1000

instance {ε α : Type} [DecidableEq ε] [DecidableEq α] : DecidableEq (Except ε α) :=
  fun x y =>
    match x, y with
    | .error a, .error b =>
      if h : a = b then .isTrue (by rw [h]) else .isFalse (by intro he; cases he; exact h rfl)
    | .ok a, .ok b =>
      if h : a = b then .isTrue (by rw [h]) else .isFalse (by intro he; cases he; exact h rfl)
    | .error _, .ok _ => .isFalse (by intro he; cases he)
    | .ok _, .error _ => .isFalse (by intro he; cases he)

namespace Rags

abbrev Token := List Char

def str (s : String) : Token := s.data

def nulChar : Char := Char.ofNat 0

/-- Mirrors `ValueLocation` in src/lib.rs. -/
inductive ValueLocation
  | Unknown
  | HasEqual (off : Nat)
  | TakesNext
deriving DecidableEq, Repr

/-- Mirrors `FoundMatch` in src/lib.rs. -/
structure FoundMatch where
  index : Nat
  run_count : Nat
  value : ValueLocation
deriving DecidableEq, Repr

/-- Mirrors `LooksLike` in src/lib.rs. -/
inductive LooksLike
  | ShortArg
  | LongArg
  | Positional
deriving DecidableEq, Repr

/-- Mirrors `Unused` in src/lib.rs. -/
structure Unused where
  arg : Token
  looks_like : LooksLike
deriving DecidableEq, Repr

/-- Mirrors `errors::Error` in src/errors.rs. -/
inductive Error
  | InvalidState (desc : Token)
  | InvalidInput (short : Char) (long : Token) (desc : Token)
  | MissingArgValue (short : Char) (long : Token)
  | ConstructionError (short : Char) (long : Token) (msg : Token)
  | PositionalConstructionError (name : Token) (msg : Token)
  | SubConstructionError (name : Token) (msg : Token)
  | ValuedArgInRun (short : Char) (run : Token)
  | NestedGroup (orig : Token) (attempted : Token)
  | PrinterMissingGroup (name : Token)
  | MissingArgument (a : Token)
  | MissingPositional (a : Token)
  | MultipleVariadic (name : Token)
  | UnorderedPositionals (name : Token)
deriving DecidableEq, Repr

/-- Mirrors the core state of `Parser` in src/lib.rs (printer omitted). -/
structure Parser where
  args : List Token
  mask : List Nat
  run_masks : List (Nat × List Nat)
  walk_depth : Nat
  commit_depth : Nat
  max_depth : Nat
  parse_done : Bool
  curr_group : Option Token
  help : Bool
  has_variadic : Bool
  argstop : Option Nat
deriving DecidableEq, Repr

/-- Mirrors `BitSet::remove` on the consumption mask. -/
def maskRemove (m : List Nat) (i : Nat) : List Nat := m.filter (fun x => x != i)

/-- Mirrors `BTreeMap::get` on the run-mask map. -/
def rm_lookup (rm : List (Nat × List Nat)) (i : Nat) : Option (List Nat) :=
  (rm.find? (fun e => e.1 == i)).map (fun e => e.2)

/-- Mirrors `BTreeMap::insert` (update-or-append) on the run-mask map. -/
def rm_set (rm : List (Nat × List Nat)) (i : Nat) (v : List Nat) : List (Nat × List Nat) :=
  if (rm.find? (fun e => e.1 == i)).isSome then
    rm.map (fun e => if e.1 == i then (i, v) else e)
  else
    rm ++ [(i, v)]

/-- Mirrors `str::match_indices(char)`: offsets at which `c` occurs in `tok`. -/
def charIndices (tok : Token) (c : Char) : List Nat :=
  (List.range tok.length).filter (fun i => tok.get? i == some c)

/-- Mirrors `printer::arg_string` (its `unreachable!` branch is modelled as
the empty string; `char::is_alphabetic` agrees with `Char.isAlpha` on ASCII). -/
def arg_string (short : Char) (long : Token) (pfxLong : Bool) : Token :=
  if short.isAlpha && long.length > 0 then
    '-' :: short :: ',' :: ' ' :: '-' :: '-' :: long
  else if short.isAlpha && long.isEmpty then
    ['-', short]
  else if !long.isEmpty then
    if pfxLong then ' ' :: ' ' :: ' ' :: ' ' :: '-' :: '-' :: long
    else '-' :: '-' :: long
  else []

/-- Mirrors `Parser::should_ignore`. -/
def should_ignore (p : Parser) (is_subcmd : Bool) : Bool :=
  if p.parse_done then true
  else if is_subcmd then !(p.walk_depth == p.commit_depth + 1)
  else !(p.walk_depth == p.max_depth)

/-- Mirrors `Parser::commit_next_level`. -/
def commit_next_level (p : Parser) : Parser :=
  { p with commit_depth := p.commit_depth + 1,
           max_depth := max (p.commit_depth + 1) p.max_depth }

/-- Mirrors `Parser::walk_next_level`. -/
def walk_next_level (p : Parser) : Parser :=
  { p with walk_depth := p.walk_depth + 1 }

/-- Mirrors `Parser::handle_run`. -/
def handle_run (p : Parser) (idx : Nat) (short : Char) (expect_value : Bool) :
    Except Error (Parser × Option FoundMatch) :=
  let arg := p.args.getD idx []
  if expect_value && !(arg.getLast? == some short) then
    .error (.ValuedArgInRun short arg)
  else
    let mtchs := charIndices arg short
    if mtchs.isEmpty then
      .ok (p, none)
    else
      let pm : Parser × List Nat :=
        match rm_lookup p.run_masks idx with
        | some m => (p, m)
        | none =>
          let bits := List.range' 1 (arg.length - 1)
          ({ p with run_masks := rm_set p.run_masks idx bits }, bits)
      let p1 := pm.1
      let runmask := pm.2
      if runmask.isEmpty then
        .ok (p1, none)
      else
        let claimed := mtchs.filter (fun i => runmask.contains i)
        let runmask2 := runmask.filter (fun i => !(mtchs.contains i))
        let p2 := { p1 with run_masks := rm_set p1.run_masks idx runmask2 }
        if claimed.length == 0 then
          .ok (p2, none)
        else
          let p3 := if runmask2.isEmpty then { p2 with mask := maskRemove p2.mask idx } else p2
          .ok (p3, some ⟨idx, claimed.length, if expect_value then .TakesNext else .Unknown⟩)

/-- Mirrors `Parser::matches_short`. -/
def matches_short (p : Parser) (idx : Nat) (short : Char) (expect_value : Bool) :
    Except Error (Parser × Option FoundMatch) :=
  if short == nulChar then .ok (p, none)
  else
    let arg := p.args.getD idx []
    if arg.length < 2 then .ok (p, none)
    else if (rm_lookup p.run_masks idx).isSome then
      handle_run p idx short expect_value
    else
      let arg_0 := arg.getD 0 nulChar
      let arg_1 := arg.getD 1 nulChar
      let arg_2 := arg.getD 2 nulChar
      if arg_0 != '-' then .ok (p, none)
      else if arg_1 == '-' then .ok (p, none)
      else if arg_1 != short then
        if decide (arg.length > 2) && arg_1 != '-' && arg_2 != '=' then
          handle_run p idx short expect_value
        else .ok (p, none)
      else if arg.length == 2 then
        if expect_value && p.mask.contains (idx + 1) then
          .ok (p, some ⟨idx, 0, .TakesNext⟩)
        else
          .ok (p, some ⟨idx, 0, .Unknown⟩)
      else if arg_2 == '=' then
        .ok (p, some ⟨idx, 0, .HasEqual 2⟩)
      else
        handle_run p idx short expect_value

/-- Mirrors `Parser::matches_long` (it never errors, so it returns `Option`). -/
def matches_long (p : Parser) (idx : Nat) (long : Token) (expect_value : Bool) :
    Option FoundMatch :=
  if long.isEmpty then none
  else
    let arg := p.args.getD idx []
    let end_of_arg := 2 + long.length
    if arg.length < end_of_arg then none
    else if arg.take 2 != ['-', '-'] then none
    else if (arg.drop 2).take long.length != long then none
    else if arg.length == end_of_arg then
      some ⟨idx, 0,
        if expect_value && p.mask.contains (idx + 1) then .TakesNext else .Unknown⟩
    else
      match arg.get? end_of_arg with
      | some c => if c == '=' then some ⟨idx, 0, .HasEqual end_of_arg⟩ else none
      | none => none

/-- Mirrors the loop body of `Parser::find_match` over a snapshot of the mask. -/
def find_match_go (short : Char) (long : Token) (expect_value : Bool) :
    Parser → List Nat → Except Error (Parser × Option FoundMatch)
  | p, [] => .ok (p, none)
  | p, i :: rest =>
    match matches_short p i short expect_value with
    | .error e => .error e
    | .ok (p1, some m) => .ok (p1, some m)
    | .ok (p1, none) =>
      match matches_long p1 i long expect_value with
      | some m => .ok (p1, some m)
      | none => find_match_go short long expect_value p1 rest

/-- Mirrors `Parser::find_match`. -/
def find_match (p : Parser) (short : Char) (long : Token) (expect_value : Bool) :
    Except Error (Parser × Option FoundMatch) :=
  find_match_go short long expect_value p p.mask

/-- Mirrors `Parser::find_subcommand`. -/
def find_subcommand (p : Parser) (name : Token) : Option FoundMatch :=
  match p.mask.find? (fun i => p.args.getD i [] == name) with
  | some i => some ⟨i, 0, .Unknown⟩
  | none => none

/-- Mirrors `Parser::construct_arg` at `T = String` (identity conversion). -/
def construct_arg (p : Parser) (info : FoundMatch) (short : Char) (long : Token) :
    Except Error (Parser × Token) :=
  match info.value with
  | .Unknown => .error (.MissingArgValue short long)
  | .TakesNext =>
    if !(p.mask.contains (info.index + 1)) then .error (.MissingArgValue short long)
    else
      .ok ({ p with mask := maskRemove p.mask (info.index + 1) },
           p.args.getD (info.index + 1) [])
  | .HasEqual off => .ok (p, (p.args.getD info.index []).drop (off + 1))

/-- Mirrors `Parser::done`. -/
def Parser.done (p : Parser) : Except Error Parser :=
  if p.curr_group.isSome then .ok { p with curr_group := none }
  else if p.walk_depth == 0 then .error (.InvalidState (str "call to done() at top-level"))
  else
    let p1 :=
      if p.walk_depth == p.commit_depth && p.commit_depth == p.max_depth then
        { p with parse_done := true }
      else p
    .ok { p1 with walk_depth := p1.walk_depth - 1 }

/-- Mirrors `Parser::is_help_flags`. -/
def is_help_flags (short : Char) (long : Token) : Bool :=
  short == 'h' || long == str "help"

/-- Mirrors `Parser::arg` at `T = String` (printer calls omitted,
help-mode control flow kept). -/
def Parser.arg (p : Parser) (short : Char) (long : Token)
    (into : Token) (required : Bool) : Except Error (Parser × Token) :=
  if should_ignore p false then .ok (p, into)
  else if p.help then .ok (p, into)
  else
    match find_match p short long true with
    | .error e => .error e
    | .ok (p1, none) =>
      if required && !p1.help then .error (.MissingArgument (arg_string short long false))
      else .ok (p1, into)
    | .ok (p1, some found) =>
      let p2 := { p1 with mask := maskRemove p1.mask found.index }
      construct_arg p2 found short long

/-- Mirrors `Parser::flag` (the help flag keeps evaluating in help mode). -/
def Parser.flag (p : Parser) (short : Char) (long : Token)
    (into : Bool) (invert : Bool) : Except Error (Parser × Bool) :=
  if should_ignore p false then .ok (p, into)
  else if p.help && !(is_help_flags short long) then .ok (p, into)
  else
    match find_match p short long false with
    | .error e => .error e
    | .ok (p1, none) => .ok (p1, into)
    | .ok (p1, some found) =>
      let p2 := { p1 with mask := maskRemove p1.mask found.index }
      match found.value with
      | .Unknown => .ok (p2, !invert)
      | .TakesNext => .error (.InvalidInput short long (str "flag should not have a value"))
      | .HasEqual _ => .error (.InvalidInput short long (str "flag should not have a value"))

/-- Mirrors the `loop` in `Parser::count`; the `loop` is total because every
iteration claims at least one mask bit, which the fuel argument bounds.
Repeated `add_assign` of `step` is modelled as `step * run_count`. -/
def count_loop (short : Char) (long : Token) (step : Int) :
    Nat → Parser → Int → Except Error (Parser × Int)
  | 0, p, into => .ok (p, into)
  | fuel + 1, p, into =>
    match find_match p short long false with
    | .error e => .error e
    | .ok (p1, none) => .ok (p1, into)
    | .ok (p1, some found) =>
      let p2 := if found.run_count == 0 then { p1 with mask := maskRemove p1.mask found.index }
                else p1
      match found.value with
      | .Unknown =>
        let into2 := if found.run_count == 0 then into + step
                     else into + step * (found.run_count : Int)
        count_loop short long step fuel p2 into2
      | .TakesNext => .error (.InvalidInput short long (str "count should not have a value"))
      | .HasEqual _ => .error (.InvalidInput short long (str "count should not have a value"))

/-- Fuel bound for the matching loops: one unit per character of every token
plus one per token plus one; each loop iteration claims at least one mask or
run-mask bit, so this bound is never reached. -/
def count_fuel (p : Parser) : Nat :=
  p.args.foldr (fun a acc => a.length + 1 + acc) 1

/-- Mirrors `Parser::count` at a numeric target of type `Int`. -/
def Parser.count (p : Parser) (short : Char) (long : Token)
    (into : Int) (step : Int) : Except Error (Parser × Int) :=
  if should_ignore p false then .ok (p, into)
  else if p.help then .ok (p, into)
  else count_loop short long step (count_fuel p) p into

/-- Modelled from the spec (§4.4 Counter): companion counter of accumulation
events, "once per token match, or once per character claimed within a run in
that same iteration"; used to compare `count_loop` against the spec's words. -/
def count_units_spec (short : Char) (long : Token) :
    Nat → Parser → Except Error (Parser × Nat)
  | 0, p => .ok (p, 0)
  | fuel + 1, p =>
    match find_match p short long false with
    | .error e => .error e
    | .ok (p1, none) => .ok (p1, 0)
    | .ok (p1, some found) =>
      let p2 := if found.run_count == 0 then { p1 with mask := maskRemove p1.mask found.index }
                else p1
      match found.value with
      | .Unknown =>
        let u := if found.run_count == 0 then 1 else found.run_count
        match count_units_spec short long fuel p2 with
        | .error e => .error e
        | .ok (q, n) => .ok (q, u + n)
      | .TakesNext => .error (.InvalidInput short long (str "count should not have a value"))
      | .HasEqual _ => .error (.InvalidInput short long (str "count should not have a value"))

/-- Mirrors the `loop` in `Parser::list` at `T = String`. -/
def list_loop (short : Char) (long : Token) (required : Bool) :
    Nat → Parser → List Token → Nat → Except Error (Parser × List Token)
  | 0, p, into, _ => .ok (p, into)
  | fuel + 1, p, into, found_count =>
    match find_match p short long true with
    | .error e => .error e
    | .ok (p1, none) =>
      if required && found_count == 0 && !p1.help then
        .error (.MissingArgument (arg_string short long false))
      else .ok (p1, into)
    | .ok (p1, some found) =>
      let p2 := { p1 with mask := maskRemove p1.mask found.index }
      match found.value with
      | .Unknown => .error (.MissingArgValue short long)
      | .TakesNext =>
        let p3 := { p2 with mask := maskRemove p2.mask (found.index + 1) }
        list_loop short long required fuel p3
          (into ++ [p3.args.getD (found.index + 1) []]) (found_count + 1)
      | .HasEqual off =>
        list_loop short long required fuel p2
          (into ++ [(p2.args.getD found.index []).drop (off + 1)]) (found_count + 1)

/-- Mirrors `Parser::list` at `T = String`. -/
def Parser.list (p : Parser) (short : Char) (long : Token)
    (into : List Token) (required : Bool) : Except Error (Parser × List Token) :=
  if should_ignore p false then .ok (p, into)
  else if p.help then .ok (p, into)
  else list_loop short long required (count_fuel p) p into 0

/-- Mirrors `Parser::subcommand` at `T = String` (printer calls omitted). -/
def Parser.subcommand (p : Parser) (name : Token) (into : List Token) :
    Except Error (Parser × List Token) :=
  let p0 := walk_next_level p
  if should_ignore p0 true then .ok (p0, into)
  else if name.isEmpty then .error (.InvalidState (str "subcommand(...) given empty name"))
  else
    match find_subcommand p0 name with
    | some info =>
      let p1 := { p0 with mask := maskRemove p0.mask info.index }
      .ok (commit_next_level p1, into ++ [p1.args.getD info.index []])
    | none => .ok (p0, into)

/-- Mirrors `Parser::group` (printer call omitted; `add_group` never errors). -/
def Parser.group (p : Parser) (name : Token) : Except Error Parser :=
  match p.curr_group with
  | some orig => .error (.NestedGroup orig name)
  | none =>
    if should_ignore p false then .ok p
    else .ok { p with curr_group := some name }

/-- Mirrors `Parser::positional` at `T = String`; `mask.iter().next()` is the
head of the ascending mask. -/
def Parser.positional (p : Parser) (name : Token) (into : Token) (required : Bool) :
    Except Error (Parser × Token) :=
  if should_ignore p false then .ok (p, into)
  else if p.has_variadic then .error (.UnorderedPositionals name)
  else if p.help then .ok (p, into)
  else
    match p.mask.head? with
    | none => if required then .error (.MissingPositional name) else .ok (p, into)
    | some idx =>
      .ok ({ p with mask := maskRemove p.mask idx }, p.args.getD idx [])

/-- Tokens located after the argstop sentinel, in original order
(the `(stop+1)..args.len()` loop in `Parser::positional_list`). -/
def after_argstop (p : Parser) : List Token :=
  match p.argstop with
  | some stop => (List.range' (stop + 1) (p.args.length - (stop + 1))).map
      (fun i => p.args.getD i [])
  | none => []

/-- Mirrors `Parser::positional_list` at `T = String`. -/
def Parser.positional_list (p : Parser) (name : Token) (into : List Token)
    (required : Bool) : Except Error (Parser × List Token) :=
  if should_ignore p false then .ok (p, into)
  else if p.has_variadic then .error (.MultipleVariadic name)
  else
    let p1 := { p with has_variadic := true }
    if p1.help then .ok (p1, into)
    else
      let mask_vals := p1.mask.map (fun i => p1.args.getD i [])
      let after_vals := after_argstop p1
      let found_count := mask_vals.length + after_vals.length
      let p2 := { p1 with mask := p1.mask.foldl maskRemove p1.mask }
      if required && found_count == 0 then
        .error (.MissingPositional (name ++ str "..."))
      else
        .ok (p2, into ++ mask_vals ++ after_vals)

/-- Mirrors `Unused::new`. -/
def Unused.new (value : Token) : Unused :=
  let arg_0 := value.getD 0 nulChar
  let arg_1 := value.getD 1 nulChar
  let looks :=
    if arg_0 == '-' && arg_1 == '-' then LooksLike.LongArg
    else if arg_0 == '-' && arg_1 != '-' then LooksLike.ShortArg
    else LooksLike.Positional
  ⟨value, looks⟩

/-- Mirrors `Parser::unused`; the `unwrap` on `chars().nth(m+1)` panics when
that offset does not exist, modelled by an overall result of `none`. -/
def Parser.unused (p : Parser) : Option (List Unused) :=
  (p.mask.mapM (fun i =>
    match rm_lookup p.run_masks i with
    | some rm =>
      rm.mapM (fun m =>
        ((p.args.getD i []).get? (m + 1)).map
          (fun c => (⟨['-', c], LooksLike.ShortArg⟩ : Unused)))
    | none => some [Unused.new (p.args.getD i [])])).map List.flatten

/-- Mirrors `Parser::wants_help`. -/
def Parser.wants_help (p : Parser) : Bool := p.help

/-- The parser record built by `Parser::from_strings` before it evaluates the
implicit help flag: all positions except 0 and anything at or after the
argstop sentinel are unclaimed. -/
def from_strings_base (input : List Token) : Parser :=
  let argstop := input.findIdx? (fun a => a == str "--")
  let cnt := argstop.getD input.length
  { args := input, mask := List.range' 1 (cnt - 1), run_masks := [],
    walk_depth := 0, commit_depth := 0, max_depth := 0,
    parse_done := false, curr_group := none,
    help := false, has_variadic := false, argstop := argstop }

/-- Mirrors `Parser::from_strings`; the `expect` on the implicit help flag
(a Rust panic) is modelled by propagating the error. -/
def from_strings (input : List Token) : Except Error Parser :=
  match (from_strings_base input).flag 'h' (str "help") false false with
  | .error e => .error e
  | .ok (p1, wants) => .ok { p1 with help := wants }

/-- Whether the final character offset of token `idx` is still open: true when
the token has no run state yet, or its run state contains the last offset. -/
def run_last_open (p : Parser) (idx : Nat) : Bool :=
  match rm_lookup p.run_masks idx with
  | none => true
  | some rm => rm.contains ((p.args.getD idx []).length - 1)

/-- The parser state `from_strings` produces for `prog --LONG=VALUE` when the
implicit help flag matches nothing and no argstop is present (asserted by
hypothesis where used): only position 1 unclaimed. -/
def eq_form_state (long value : Token) : Parser :=
  ⟨[str "prog", '-' :: '-' :: (long ++ '=' :: value)], [1], [],
   0, 0, 0, false, none, false, false, none⟩

/-- The parser state `from_strings` produces for `prog --LONG VALUE` when the
implicit help flag matches nothing and no argstop is present (asserted by
hypothesis where used): positions 1 and 2 unclaimed. -/
def next_form_state (long value : Token) : Parser :=
  ⟨[str "prog", '-' :: '-' :: long, value], [1, 2], [],
   0, 0, 0, false, none, false, false, none⟩

theorem handle_run_shape (p : Parser) (idx : Nat) (s : Char) (ev : Bool) :
    (∃ e, handle_run p idx s ev = .error e) ∨
    (∃ m r f, handle_run p idx s ev = .ok ({ p with mask := m, run_masks := r }, f)) := by
  unfold handle_run
  dsimp only
  repeat' split
  all_goals first
    | exact .inl ⟨_, rfl⟩
    | exact .inr ⟨_, _, _, rfl⟩

theorem matches_short_shape (p : Parser) (idx : Nat) (s : Char) (ev : Bool) :
    ∀ r, matches_short p idx s ev = r →
      (∃ e, r = .error e) ∨
      (∃ m rm f, r = .ok ({ p with mask := m, run_masks := rm }, f)) := by
  intro r hr
  unfold matches_short at hr
  repeat' (first | split at hr | dsimp only at hr)
  all_goals first
    | exact .inl ⟨_, hr.symm⟩
    | exact .inr ⟨_, _, _, hr.symm⟩
    | (rcases handle_run_shape p idx s ev with ⟨e, he⟩ | ⟨m, rm, f, hs⟩
       · exact .inl ⟨e, by rw [← hr, he]⟩
       · exact .inr ⟨m, rm, f, by rw [← hr, hs]⟩)

theorem matches_short_has_variadic (p : Parser) (idx : Nat) (s : Char) (ev : Bool)
    (q : Parser) (f : Option FoundMatch)
    (h : matches_short p idx s ev = .ok (q, f)) : q.has_variadic = p.has_variadic := by
  rcases matches_short_shape p idx s ev _ h with ⟨e, he⟩ | ⟨m, rm, f2, hs⟩
  · cases he
  · simp only [Except.ok.injEq, Prod.mk.injEq] at hs
    rw [hs.1]

theorem find_match_go_has_variadic (s : Char) (long : Token) (ev : Bool)
    (l : List Nat) :
    ∀ (p q : Parser) (f : Option FoundMatch),
      find_match_go s long ev p l = .ok (q, f) → q.has_variadic = p.has_variadic := by
  induction l with
  | nil =>
    intro p q f h
    unfold find_match_go at h
    simp_all
  | cons i rest ih =>
    intro p q f h
    unfold find_match_go at h
    cases hms : matches_short p i s ev with
    | error e => rw [hms] at h; cases h
    | ok pr =>
      obtain ⟨p1, m⟩ := pr
      have hp1 : p1.has_variadic = p.has_variadic :=
        matches_short_has_variadic _ _ _ _ _ _ hms
      rw [hms] at h
      cases m with
      | some m2 =>
        simp only at h
        cases h
        exact hp1
      | none =>
        simp only at h
        cases hml : matches_long p1 i long ev with
        | some m2 =>
          rw [hml] at h
          cases h
          exact hp1
        | none =>
          rw [hml] at h
          exact (ih p1 q f h).trans hp1

theorem find_match_has_variadic (p : Parser) (s : Char) (long : Token) (ev : Bool)
    (q : Parser) (f : Option FoundMatch)
    (h : find_match p s long ev = .ok (q, f)) : q.has_variadic = p.has_variadic :=
  find_match_go_has_variadic s long ev p.mask p q f h

theorem construct_arg_shape (p : Parser) (info : FoundMatch) (s : Char) (long : Token) :
    ∀ r, construct_arg p info s long = r →
      (∃ e, r = .error e) ∨ (∃ m v, r = .ok ({ p with mask := m }, v)) := by
  intro r hr
  unfold construct_arg at hr
  repeat' (first | split at hr | dsimp only at hr)
  all_goals first
    | exact .inl ⟨_, hr.symm⟩
    | exact .inr ⟨_, _, hr.symm⟩

theorem construct_arg_has_variadic (p : Parser) (info : FoundMatch) (s : Char)
    (long : Token) (q : Parser) (v : Token)
    (h : construct_arg p info s long = .ok (q, v)) : q.has_variadic = p.has_variadic := by
  rcases construct_arg_shape p info s long _ h with ⟨e, he⟩ | ⟨m, v2, hs⟩
  · cases he
  · simp only [Except.ok.injEq, Prod.mk.injEq] at hs
    rw [hs.1]

theorem arg_has_variadic (p : Parser) (short : Char) (long : Token) (into : Token)
    (required : Bool) (q : Parser) (v : Token)
    (h : p.arg short long into required = .ok (q, v)) : q.has_variadic = p.has_variadic := by
  unfold Parser.arg at h
  split at h
  · cases h; rfl
  split at h
  · cases h; rfl
  cases hfm : find_match p short long true with
  | error e => rw [hfm] at h; cases h
  | ok pr =>
    obtain ⟨p1, m⟩ := pr
    have hp1 : p1.has_variadic = p.has_variadic := find_match_has_variadic _ _ _ _ _ _ hfm
    rw [hfm] at h
    cases m with
    | none =>
      simp only at h
      split at h
      · cases h
      · cases h; exact hp1
    | some found =>
      simp only at h
      have hc := construct_arg_has_variadic _ _ _ _ _ _ h
      simpa [hc] using hp1

theorem flag_has_variadic (p : Parser) (short : Char) (long : Token) (into : Bool)
    (invert : Bool) (q : Parser) (v : Bool)
    (h : p.flag short long into invert = .ok (q, v)) : q.has_variadic = p.has_variadic := by
  unfold Parser.flag at h
  split at h
  · cases h; rfl
  split at h
  · cases h; rfl
  cases hfm : find_match p short long false with
  | error e => rw [hfm] at h; cases h
  | ok pr =>
    obtain ⟨p1, m⟩ := pr
    have hp1 : p1.has_variadic = p.has_variadic := find_match_has_variadic _ _ _ _ _ _ hfm
    rw [hfm] at h
    cases m with
    | none => simp only at h; cases h; exact hp1
    | some found =>
      simp only at h
      split at h
      · cases h; exact hp1
      · cases h
      · cases h

theorem count_loop_has_variadic (short : Char) (long : Token) (step : Int)
    (fuel : Nat) :
    ∀ (p : Parser) (into : Int) (q : Parser) (v : Int),
      count_loop short long step fuel p into = .ok (q, v) →
      q.has_variadic = p.has_variadic := by
  induction fuel with
  | zero =>
    intro p into q v h
    unfold count_loop at h
    cases h; rfl
  | succ n ih =>
    intro p into q v h
    unfold count_loop at h
    cases hfm : find_match p short long false with
    | error e => rw [hfm] at h; cases h
    | ok pr =>
      obtain ⟨p1, m⟩ := pr
      have hp1 : p1.has_variadic = p.has_variadic := find_match_has_variadic _ _ _ _ _ _ hfm
      rw [hfm] at h
      cases m with
      | none => simp only at h; cases h; exact hp1
      | some found =>
        simp only at h
        split at h
        · have h2 := ih _ _ _ _ h
          refine h2.trans ?_
          split <;> exact hp1
        · cases h
        · cases h

theorem list_loop_has_variadic (short : Char) (long : Token) (required : Bool)
    (fuel : Nat) :
    ∀ (p : Parser) (into : List Token) (fc : Nat) (q : Parser) (v : List Token),
      list_loop short long required fuel p into fc = .ok (q, v) →
      q.has_variadic = p.has_variadic := by
  induction fuel with
  | zero =>
    intro p into fc q v h
    unfold list_loop at h
    cases h; rfl
  | succ n ih =>
    intro p into fc q v h
    unfold list_loop at h
    cases hfm : find_match p short long true with
    | error e => rw [hfm] at h; cases h
    | ok pr =>
      obtain ⟨p1, m⟩ := pr
      have hp1 : p1.has_variadic = p.has_variadic := find_match_has_variadic _ _ _ _ _ _ hfm
      rw [hfm] at h
      cases m with
      | none =>
        simp only at h
        split at h
        · cases h
        · cases h; exact hp1
      | some found =>
        simp only at h
        split at h
        · cases h
        · exact (ih _ _ _ _ _ h).trans hp1
        · exact (ih _ _ _ _ _ h).trans hp1

theorem count_has_variadic (p : Parser) (short : Char) (long : Token)
    (into step : Int) (q : Parser) (v : Int)
    (h : p.count short long into step = .ok (q, v)) : q.has_variadic = p.has_variadic := by
  unfold Parser.count at h
  split at h
  · cases h; rfl
  split at h
  · cases h; rfl
  exact count_loop_has_variadic _ _ _ _ _ _ _ _ h

theorem list_has_variadic (p : Parser) (short : Char) (long : Token)
    (into : List Token) (required : Bool) (q : Parser) (v : List Token)
    (h : Parser.list p short long into required = .ok (q, v)) :
    q.has_variadic = p.has_variadic := by
  unfold Parser.list at h
  split at h
  · cases h; rfl
  split at h
  · cases h; rfl
  exact list_loop_has_variadic _ _ _ _ _ _ _ _ _ h

theorem positional_has_variadic (p : Parser) (name : Token) (into : Token)
    (required : Bool) (q : Parser) (v : Token)
    (h : p.positional name into required = .ok (q, v)) :
    q.has_variadic = p.has_variadic := by
  unfold Parser.positional at h
  repeat' (first | split at h | dsimp only at h)
  all_goals first
    | (cases h; rfl)
    | cases h

theorem positional_list_has_variadic_mono (p : Parser) (name : Token)
    (into : List Token) (required : Bool) (q : Parser) (v : List Token)
    (hv : p.has_variadic = true)
    (h : p.positional_list name into required = .ok (q, v)) :
    q.has_variadic = true := by
  unfold Parser.positional_list at h
  repeat' (first | split at h | dsimp only at h)
  all_goals first
    | (cases h; exact hv)
    | (cases h; rfl)
    | cases h

theorem group_has_variadic (p : Parser) (name : Token) (q : Parser)
    (h : p.group name = .ok q) : q.has_variadic = p.has_variadic := by
  unfold Parser.group at h
  repeat' (first | split at h | dsimp only at h)
  all_goals first
    | (cases h; rfl)
    | cases h

theorem subcommand_has_variadic (p : Parser) (name : Token) (into : List Token)
    (q : Parser) (v : List Token)
    (h : p.subcommand name into = .ok (q, v)) : q.has_variadic = p.has_variadic := by
  unfold Parser.subcommand at h
  dsimp only [walk_next_level, commit_next_level] at h
  repeat' (first | split at h | dsimp only at h)
  all_goals first
    | (cases h; rfl)
    | cases h

theorem done_has_variadic (p : Parser) (q : Parser)
    (h : p.done = .ok q) : q.has_variadic = p.has_variadic := by
  unfold Parser.done at h
  repeat' (first | split at h | dsimp only at h)
  all_goals first
    | (cases h; rfl)
    | cases h

/-- Claim C1, counterexample: declaring `subcommand("run", …)` against tokens
`prog run` matches the token at position 1 and removes it from the
Consumption Mask, contradicting the claim that the matched token's position
remains in the mask. -/
theorem subcommand_masks_token_cex :
    ((from_strings [str "prog", str "run"]).bind
      (fun p => (p.subcommand (str "run") []).map
        (fun r => (r.1.mask.contains 1, r.1.walk_depth, r.1.commit_depth,
                   r.1.max_depth, r.2)))) =
      .ok (false, 1, 1, 1, [str "run"]) := by decide

/-- Claim C1, amended: when a live `subcommand(name, …)` declaration finds its
name among the unclaimed tokens, the call claims exactly the matched token's
position (removing it from the Consumption Mask), raises `commit_depth` by
one, sets `max_depth = max(max_depth, commit_depth)`, and has incremented
`walk_depth` by one; the matched token's text is appended to the target. -/
theorem subcommand_live_match_semantics (p : Parser) (name : Token)
    (into : List Token) (i : Nat)
    (hlive : should_ignore (walk_next_level p) true = false)
    (hname : name.isEmpty = false)
    (hfind : find_subcommand (walk_next_level p) name = some ⟨i, 0, .Unknown⟩) :
    p.subcommand name into =
      .ok ({ p with walk_depth := p.walk_depth + 1,
                    mask := maskRemove p.mask i,
                    commit_depth := p.commit_depth + 1,
                    max_depth := max (p.commit_depth + 1) p.max_depth },
           into ++ [p.args.getD i []]) := by
  simp only [Parser.subcommand, hlive, hname, hfind, Bool.false_eq_true, if_false]
  simp [walk_next_level, commit_next_level]

/-- Claim C1, witness for `subcommand_live_match_semantics` at tokens
`prog run` with the declaration `subcommand("run", …)`. -/
theorem subcommand_live_match_semantics_witness :
    should_ignore (walk_next_level
      (⟨[str "prog", str "run"], [1], [], 0, 0, 0, false, none, false, false, none⟩ :
        Parser)) true = false ∧
    (str "run").isEmpty = false ∧
    find_subcommand (walk_next_level
      (⟨[str "prog", str "run"], [1], [], 0, 0, 0, false, none, false, false, none⟩ :
        Parser)) (str "run") = some ⟨1, 0, .Unknown⟩ ∧
    (⟨[str "prog", str "run"], [1], [], 0, 0, 0, false, none, false, false, none⟩ :
        Parser).subcommand (str "run") [] =
      .ok (⟨[str "prog", str "run"], [], [], 1, 1, 1, false, none, false, false, none⟩,
           [str "run"]) := by
  refine ⟨by decide, by decide, by decide, ?_⟩
  have h := subcommand_live_match_semantics
    ⟨[str "prog", str "run"], [1], [], 0, 0, 0, false, none, false, false, none⟩
    (str "run") [] 1 (by decide) (by decide) (by decide)
  exact h.trans (by decide)

/-- Claim C2, counterexample: after a live `group("g")` is left open and an
unmatched `subcommand("s")` has raised `walk_depth` above `max_depth`, the
binding call `group("h")` is not live (`should_ignore` is true), yet it fails
with the nested-group error instead of being a no-op returning success. -/
theorem nested_group_ignored_errors_cex :
    ((from_strings [str "prog"]).bind
      (fun p => (p.group (str "g")).bind
        (fun q => (q.subcommand (str "s") []).map
          (fun r => (should_ignore r.1 false, r.1.group (str "h")))))) =
      .ok (true, .error (.NestedGroup (str "g") (str "h"))) := by decide

/-- Claim C2, amended: a non-subcommand binding call performs matching and
mutation only when `parse_done` is false and `walk_depth == max_depth`;
otherwise arg, flag, count, list, positional and positional_list are no-ops
returning success regardless of any open group, and a non-live `group` is a
no-op exactly when no group is open — whenever a group is already open,
`group` fails with the nested-group error, live or not; a subcommand
declaration tests its name against the input only when `parse_done` is false
and (after its unconditional walk-depth increment)
`walk_depth == commit_depth + 1`, and otherwise returns the walk-incremented
state unchanged. -/
theorem ignored_bindings_noop (p : Parser) (short : Char)
    (long gname sname pname : Token) (intoT : Token) (intoB : Bool)
    (intoI step : Int) (intoL : List Token) (required invert : Bool)
    (h : should_ignore p false = true) :
    p.arg short long intoT required = .ok (p, intoT) ∧
    p.flag short long intoB invert = .ok (p, intoB) ∧
    p.count short long intoI step = .ok (p, intoI) ∧
    Parser.list p short long intoL required = .ok (p, intoL) ∧
    p.positional pname intoT required = .ok (p, intoT) ∧
    p.positional_list pname intoL required = .ok (p, intoL) ∧
    (p.curr_group = none → p.group gname = .ok p) ∧
    (∀ (q : Parser) (g n : Token), q.curr_group = some g →
      q.group n = .error (.NestedGroup g n)) ∧
    (should_ignore (walk_next_level p) true = true →
      p.subcommand sname intoL = .ok (walk_next_level p, intoL)) := by
  refine ⟨?_, ?_, ?_, ?_, ?_, ?_, ?_, ?_, ?_⟩
  · simp [Parser.arg, h]
  · simp [Parser.flag, h]
  · simp [Parser.count, h]
  · simp [Parser.list, h]
  · simp [Parser.positional, h]
  · simp [Parser.positional_list, h]
  · intro hgrp
    simp [Parser.group, hgrp, h]
  · intro q g n hq
    simp [Parser.group, hq]
  · intro hsub
    simp only [Parser.subcommand, hsub, if_true]

/-- Claim C2, witness for `ignored_bindings_noop` at a non-live parser whose
group `g` is still open: arg is a no-op there, and a further `group` call
fails with the nested-group error. -/
theorem ignored_bindings_noop_witness :
    should_ignore
      (⟨[], [], [], 5, 3, 0, false, some (str "g"), false, false, none⟩ : Parser)
      false = true ∧
    (⟨[], [], [], 5, 3, 0, false, some (str "g"), false, false, none⟩ :
      Parser).arg 'x' (str "xx") (str "v") true =
      .ok (⟨[], [], [], 5, 3, 0, false, some (str "g"), false, false, none⟩,
           str "v") ∧
    (⟨[], [], [], 5, 3, 0, false, some (str "g"), false, false, none⟩ :
      Parser).group (str "h") = .error (.NestedGroup (str "g") (str "h")) := by
  refine ⟨by decide, ?_, ?_⟩
  · exact (ignored_bindings_noop _ 'x' (str "xx") [] [] [] (str "v") false 0 0 []
      true false (by decide)).1
  · exact (ignored_bindings_noop
      (⟨[], [], [], 5, 3, 0, false, some (str "g"), false, false, none⟩ : Parser)
      'x' (str "xx") [] [] [] (str "v") false 0 0 [] true false
      (by decide)).2.2.2.2.2.2.2.1 _ (str "g") (str "h") rfl

/-- Claim C5 (confirmed): `done()` with an open group closes the group and
changes no depth counter; with no open group and `walk_depth = 0` it fails
with the invalid-state error; otherwise it decrements `walk_depth` and sets
`parse_done` exactly when `walk_depth == commit_depth == max_depth` held at
entry (`parse_done` is never reset, as the disjunction shows); and once
`parse_done` is true every further binding call is inert: non-subcommand
bindings return the parser and target unchanged, and a subcommand declaration
only performs its unconditional walk-depth increment. -/
theorem done_semantics (p : Parser)
    (hg : p.curr_group = none) (hw : p.walk_depth ≠ 0) :
    (p.done = .ok { p with
        parse_done := (p.parse_done ||
          (p.walk_depth == p.commit_depth && p.commit_depth == p.max_depth)),
        walk_depth := p.walk_depth - 1 }) ∧
    (∀ (q : Parser) (g : Token), q.curr_group = some g →
      q.done = .ok { q with curr_group := none }) ∧
    (∀ q : Parser, q.curr_group = none → q.walk_depth = 0 →
      q.done = .error (.InvalidState (str "call to done() at top-level"))) ∧
    (∀ q : Parser, q.parse_done = true →
      ∀ (short : Char) (long gname sname pname : Token) (intoT : Token) (intoB : Bool)
        (intoI step : Int) (intoL : List Token) (required invert : Bool),
        q.arg short long intoT required = .ok (q, intoT) ∧
        q.flag short long intoB invert = .ok (q, intoB) ∧
        q.count short long intoI step = .ok (q, intoI) ∧
        Parser.list q short long intoL required = .ok (q, intoL) ∧
        q.positional pname intoT required = .ok (q, intoT) ∧
        q.positional_list pname intoL required = .ok (q, intoL) ∧
        (q.curr_group = none → q.group gname = .ok q) ∧
        q.subcommand sname intoL = .ok (walk_next_level q, intoL)) := by
  have hw' : (p.walk_depth == 0) = false := by simpa using hw
  refine ⟨?_, ?_, ?_, ?_⟩
  · by_cases hc : (p.walk_depth == p.commit_depth && p.commit_depth == p.max_depth) = true
    · simp [Parser.done, hg, hw', hc]
    · simp only [Bool.not_eq_true] at hc
      simp [Parser.done, hg, hw', hc]
  · intro q g hq
    simp [Parser.done, hq]
  · intro q hq hq0
    simp [Parser.done, hq, hq0]
  · intro q hq short long gname sname pname intoT intoB intoI step intoL required invert
    have hsub : should_ignore (walk_next_level q) true = true := by
      simp [should_ignore, walk_next_level, hq]
    refine ⟨?_, ?_, ?_, ?_, ?_, ?_, ?_, ?_⟩
    · simp [Parser.arg, should_ignore, hq]
    · simp [Parser.flag, should_ignore, hq]
    · simp [Parser.count, should_ignore, hq]
    · simp [Parser.list, should_ignore, hq]
    · simp [Parser.positional, should_ignore, hq]
    · simp [Parser.positional_list, should_ignore, hq]
    · intro hqg
      simp [Parser.group, hqg, should_ignore, hq]
    · simp only [Parser.subcommand, hsub, if_true]

/-- Claim C5, witness for `done_semantics` at a parser one level deep on a
fully committed path: `done()` sets `parse_done` and unwinds. -/
theorem done_semantics_witness :
    (⟨[], [], [], 1, 1, 1, false, none, false, false, none⟩ : Parser).curr_group = none ∧
    (⟨[], [], [], 1, 1, 1, false, none, false, false, none⟩ : Parser).walk_depth ≠ 0 ∧
    (⟨[], [], [], 1, 1, 1, false, none, false, false, none⟩ : Parser).done =
      .ok ⟨[], [], [], 0, 1, 1, true, none, false, false, none⟩ := by
  refine ⟨by decide, by decide, ?_⟩
  have h := (done_semantics ⟨[], [], [], 1, 1, 1, false, none, false, false, none⟩
    (by decide) (by decide)).1
  exact h.trans (by decide)

/-- Claim C9 (code bug): with tokens `argv -ab` and a counter on `a`, offset 1
is claimed and offset 2 (character `b`) stays open, so the claim says the
unused report renders `-b`; the code instead reads the character at
offset+1, which does not exist, and panics (modelled as `none`).  With
tokens `argv -ba` and a counter on `a`, offset 1 (character `b`) stays open,
yet the report renders `-a` — the character at offset 2 — instead of `-b`. -/
theorem unused_run_rendering_bug :
    (((from_strings [str "argv", str "-ab"]).bind
        (fun p => (p.count 'a' [] 0 1).map
          (fun r => (r.2, r.1.mask, r.1.run_masks, r.1.unused)))) =
      .ok (1, [1], [(1, [2])], none)) ∧
    (((from_strings [str "argv", str "-ba"]).bind
        (fun p => (p.count 'a' [] 0 1).map
          (fun r => (r.2, r.1.mask, r.1.run_masks, r.1.args.getD 1 [], r.1.unused)))) =
      .ok (1, [1], [(1, [1])], str "-ba",
           some [⟨str "-a", .ShortArg⟩])) := by
  constructor
  · decide
  · decide

theorem after_argstop_update (p : Parser) (m : List Nat) (h hv : Bool) :
    after_argstop { p with mask := m, help := h, has_variadic := hv } =
      after_argstop p := by
  unfold after_argstop
  rfl

theorem foldl_maskRemove_subset :
    ∀ (l m : List Nat), (∀ x ∈ m, x ∈ l) → l.foldl maskRemove m = [] := by
  intro l
  induction l with
  | nil =>
    intro m hm
    simp only [List.foldl_nil]
    exact List.eq_nil_iff_forall_not_mem.mpr (fun a ha => (List.not_mem_nil a) (hm a ha))
  | cons a l ih =>
    intro m hm
    rw [List.foldl_cons]
    apply ih
    intro x hx
    unfold maskRemove at hx
    rw [List.mem_filter] at hx
    have hxl : x ∈ a :: l := hm x hx.1
    have hxa : x ≠ a := by simpa using hx.2
    cases List.mem_cons.mp hxl with
    | inl h => exact absurd h hxa
    | inr h => exact h

/-- Claim C6 (confirmed): a live `positional_list` in binding mode appends to
the collector one value per still-unclaimed position in mask-iteration
(ascending) order, then one value per token after the argstop sentinel in
original order; it empties the Consumption Mask of every consumed position,
sets the variadic flag, and fails with the missing-positional error exactly
when `required` holds and zero values were appended. -/
theorem positional_list_semantics (p : Parser) (name : Token) (into : List Token)
    (required : Bool)
    (hlive : should_ignore p false = false) (hvar : p.has_variadic = false)
    (hhelp : p.help = false) :
    p.positional_list name into required =
      (if required && (p.mask.isEmpty && (after_argstop p).isEmpty) then
        .error (.MissingPositional (name ++ str "..."))
       else
        .ok ({ p with has_variadic := true, mask := [] },
             into ++ p.mask.map (fun i => p.args.getD i []) ++ after_argstop p)) := by
  have hfold : p.mask.foldl maskRemove p.mask = [] :=
    foldl_maskRemove_subset p.mask p.mask (fun x hx => hx)
  have hcond : ((p.mask.map (fun i => p.args.getD i [])).length
      + (after_argstop p).length == 0) = (p.mask.isEmpty && (after_argstop p).isEmpty) := by
    cases p.mask <;> cases hae : after_argstop p <;> simp
  unfold Parser.positional_list
  simp only [hlive, hvar, hhelp, Bool.false_eq_true, if_false, after_argstop_update]
  simp only [hfold, hcond]

/-- Claim C6, witness for `positional_list_semantics` at tokens
`prog a b -- c d` with a required collector: it gathers `a b` from the mask
and `c d` from after the sentinel. -/
theorem positional_list_semantics_witness :
    should_ignore (from_strings_base [str "prog", str "a", str "b", str "--",
      str "c", str "d"]) false = false ∧
    (from_strings_base [str "prog", str "a", str "b", str "--", str "c",
      str "d"]).has_variadic = false ∧
    (from_strings_base [str "prog", str "a", str "b", str "--", str "c",
      str "d"]).help = false ∧
    (from_strings_base [str "prog", str "a", str "b", str "--", str "c",
      str "d"]).positional_list (str "files") [] true =
      .ok ({ from_strings_base [str "prog", str "a", str "b", str "--", str "c",
               str "d"] with has_variadic := true, mask := [] },
           [str "a", str "b", str "c", str "d"]) := by
  refine ⟨by decide, by decide, by decide, ?_⟩
  have h := positional_list_semantics
    (from_strings_base [str "prog", str "a", str "b", str "--", str "c", str "d"])
    (str "files") [] true (by decide) (by decide) (by decide)
  exact h.trans (by decide)

theorem count_loop_linear (short : Char) (long : Token) (step : Int) :
    ∀ (fuel : Nat) (p : Parser) (into : Int),
      count_loop short long step fuel p into =
        (count_units_spec short long fuel p).map
          (fun qn => (qn.1, into + step * (qn.2 : Int))) := by
  intro fuel
  induction fuel with
  | zero =>
    intro p into
    simp [count_loop, count_units_spec, Except.map]
  | succ n ih =>
    intro p into
    unfold count_loop count_units_spec
    cases hfm : find_match p short long false with
    | error e => simp [Except.map]
    | ok pr =>
      obtain ⟨p1, m⟩ := pr
      cases m with
      | none => simp [Except.map]
      | some found =>
        simp only
        cases hv : found.value with
        | Unknown =>
          simp only
          rw [ih]
          cases hu : count_units_spec short long n
              (if (found.run_count == 0) = true then
                { p1 with mask := maskRemove p1.mask found.index } else p1) with
          | error e => simp [Except.map]
          | ok qn =>
            obtain ⟨q, u⟩ := qn
            simp only [Except.map]
            by_cases hrc : (found.run_count == 0) = true
            · simp only [hrc, if_true]
              push_cast
              ring_nf
            · simp only [hrc, if_false]
              push_cast
              ring_nf
        | TakesNext => simp [Except.map]
        | HasEqual off => simp [Except.map]

/-- Claim C4, counterexample: two interleaved cluster tokens
`-vxvxvxvxvx -vxvxvxvxvx` against counters on `v` and `x` (step 1) yield
10 and 10 — each token holds five `v`s and five `x`s — not 5 and 5 as the
claim states. -/
theorem interleaved_two_tokens_cex :
    (((from_strings [str "argv[0]", str "-vxvxvxvxvx", str "-vxvxvxvxvx"]).bind
      (fun p => (p.count 'v' (str "verbose") 0 1).bind
        (fun r => (r.1.count 'x' (str "extreme") 0 1).map
          (fun s2 => (r.2, s2.2))))) = .ok (10, 10)) ∧
    ¬ (((from_strings [str "argv[0]", str "-vxvxvxvxvx", str "-vxvxvxvxvx"]).bind
      (fun p => (p.count 'v' (str "verbose") 0 1).bind
        (fun r => (r.1.count 'x' (str "extreme") 0 1).map
          (fun s2 => (r.2, s2.2))))) = .ok (5, 5)) := by
  constructor
  · decide
  · decide

/-- Claim C4, amended: a live counter adds a caller-supplied step once per
plain token match and once per character claimed within a run in the same
iteration (final value = initial + step × total such units, the units being
counted by `count_units_spec`); tokens `-vvvvv -vvvvv` with step 1 yield
exactly 10; interleaved clusters `-vxvxvxvxvx -vxvxvxvxvx` with counters on
`v` and `x` yield 10 and 10 (a single such token yields 5 and 5). -/
theorem count_step_accumulation (p : Parser) (short : Char) (long : Token)
    (into step : Int)
    (hlive : should_ignore p false = false) (hhelp : p.help = false) :
    (p.count short long into step =
      (count_units_spec short long (count_fuel p) p).map
        (fun qn => (qn.1, into + step * (qn.2 : Int)))) ∧
    (((from_strings [str "argv[0]", str "-vvvvv", str "-vvvvv"]).bind
        (fun q => q.count 'v' (str "verbose") 0 1)).map (fun r => r.2) =
      .ok 10) ∧
    (((from_strings [str "argv[0]", str "-vxvxvxvxvx", str "-vxvxvxvxvx"]).bind
        (fun q => (q.count 'v' (str "verbose") 0 1).bind
          (fun r => (r.1.count 'x' (str "extreme") 0 1).map
            (fun s2 => (r.2, s2.2))))) = .ok (10, 10)) ∧
    (((from_strings [str "argv[0]", str "-vxvxvxvxvx"]).bind
        (fun q => (q.count 'v' (str "verbose") 0 1).bind
          (fun r => (r.1.count 'x' (str "extreme") 0 1).map
            (fun s2 => (r.2, s2.2))))) = .ok (5, 5)) := by
  refine ⟨?_, by decide, by decide, by decide⟩
  unfold Parser.count
  simp only [hlive, hhelp, Bool.false_eq_true, if_false]
  exact count_loop_linear short long step (count_fuel p) p into

/-- Claim C4, witness for `count_step_accumulation` at the live base parser
for tokens `argv[0] -vvvvv -vvvvv`. -/
theorem count_step_accumulation_witness :
    should_ignore (from_strings_base [str "argv[0]", str "-vvvvv", str "-vvvvv"])
      false = false ∧
    (from_strings_base [str "argv[0]", str "-vvvvv", str "-vvvvv"]).help = false ∧
    (from_strings_base [str "argv[0]", str "-vvvvv", str "-vvvvv"]).count 'v'
        (str "verbose") 0 1 =
      (count_units_spec 'v' (str "verbose")
        (count_fuel (from_strings_base [str "argv[0]", str "-vvvvv", str "-vvvvv"]))
        (from_strings_base [str "argv[0]", str "-vvvvv", str "-vvvvv"])).map
          (fun qn => (qn.1, 0 + 1 * (qn.2 : Int))) := by
  refine ⟨by decide, by decide, ?_⟩
  exact (count_step_accumulation
    (from_strings_base [str "argv[0]", str "-vvvvv", str "-vvvvv"]) 'v'
    (str "verbose") 0 1 (by decide) (by decide)).1

theorem matches_short_cluster_is_run (p : Parser) (idx : Nat) (short : Char)
    (hshort : (short == nulChar) = false)
    (hlen : 2 < (p.args.getD idx []).length)
    (h0 : (p.args.getD idx []).getD 0 nulChar = '-')
    (h1 : ((p.args.getD idx []).getD 1 nulChar == '-') = false)
    (h2 : ((p.args.getD idx []).getD 2 nulChar == '=') = false) :
    matches_short p idx short true = handle_run p idx short true := by
  unfold matches_short
  simp only [hshort, Bool.false_eq_true, if_false]
  have hlt : ¬ (p.args.getD idx []).length < 2 := by omega
  simp only [if_neg hlt]
  cases hrm : rm_lookup p.run_masks idx with
  | some rm => simp [hrm]
  | none =>
    simp only [hrm, Option.isSome_none, Bool.false_eq_true, if_false]
    simp only [bne, h0, h1, h2, beq_self_eq_true, Bool.not_true, Bool.not_false,
      Bool.false_eq_true, if_false]
    by_cases hbs : ((p.args.getD idx []).getD 1 nulChar == short) = true
    · simp only [hbs, Bool.not_true, Bool.false_eq_true, if_false]
      have hne2 : ((p.args.getD idx []).length == 2) = false := by
        simp only [beq_eq_false_iff_ne, ne_eq]
        omega
      simp only [hne2, Bool.false_eq_true, if_false, h2]
    · rw [Bool.not_eq_true] at hbs
      have hd : decide ((p.args.getD idx []).length > 2) = true := by simpa using hlen
      simp only [hbs, Bool.not_false, if_true, hd, Bool.true_and, Bool.and_self, if_true,
        Bool.and_true]

theorem handle_run_valued (p : Parser) (idx : Nat) (short : Char)
    (hlen : 2 < (p.args.getD idx []).length) :
    (((p.args.getD idx []).getLast? == some short) = false →
      handle_run p idx short true =
        .error (.ValuedArgInRun short (p.args.getD idx []))) ∧
    ((p.args.getD idx []).getLast? = some short → run_last_open p idx = true →
      ∃ q n, 0 < n ∧
        handle_run p idx short true = .ok (q, some ⟨idx, n, .TakesNext⟩)) := by
  constructor
  · intro hlast
    unfold handle_run
    dsimp only
    rw [hlast]
    rfl
  · intro hlast hopen
    unfold run_last_open at hopen
    unfold handle_run
    generalize htok : p.args.getD idx [] = tok at hlast hlen hopen ⊢
    have hb1 : (tok.getLast? == some short) = true := by simp [hlast]
    have hget : tok[tok.length - 1]? = some short := by
      rw [← List.getLast?_eq_getElem? tok]
      exact hlast
    have hmem : tok.length - 1 ∈ charIndices tok short := by
      unfold charIndices
      rw [List.mem_filter]
      exact ⟨List.mem_range.mpr (by omega),
             by simp [List.get?_eq_getElem?, hget]⟩
    have hb2 : (charIndices tok short).isEmpty = false := by
      cases hx : charIndices tok short with
      | nil => rw [hx] at hmem; cases hmem
      | cons a t => rfl
    dsimp only
    rw [hb1]
    simp only [Bool.not_true, Bool.and_false, Bool.false_eq_true, if_false, hb2]
    cases hrm : rm_lookup p.run_masks idx with
    | none =>
      dsimp only
      have hbmem : tok.length - 1 ∈ List.range' 1 (tok.length - 1) := by
        rw [List.mem_range'_1]
        omega
      have hb3 : (List.range' 1 (tok.length - 1)).isEmpty = false := by
        cases hx : List.range' 1 (tok.length - 1) with
        | nil => rw [hx] at hbmem; cases hbmem
        | cons a t => rfl
      simp only [hb3, Bool.false_eq_true, if_false]
      have hcl : tok.length - 1 ∈ (charIndices tok short).filter
          (fun i => (List.range' 1 (tok.length - 1)).contains i) := by
        rw [List.mem_filter]
        exact ⟨hmem, by simpa using hbmem⟩
      have hb4 : (((charIndices tok short).filter
          (fun i => (List.range' 1 (tok.length - 1)).contains i)).length == 0) = false := by
        cases hx : (charIndices tok short).filter
            (fun i => (List.range' 1 (tok.length - 1)).contains i) with
        | nil => rw [hx] at hcl; cases hcl
        | cons a t => rfl
      simp only [hb4, Bool.false_eq_true, if_false]
      exact ⟨_, _, List.length_pos.mpr (List.ne_nil_of_mem hcl), rfl⟩
    | some rm =>
      rw [hrm] at hopen
      dsimp only at hopen
      have hrmem : tok.length - 1 ∈ rm := by simpa using hopen
      dsimp only
      have hb3 : rm.isEmpty = false := by
        cases hx : rm with
        | nil => rw [hx] at hrmem; cases hrmem
        | cons a t => rfl
      simp only [hb3, Bool.false_eq_true, if_false]
      have hcl : tok.length - 1 ∈ (charIndices tok short).filter
          (fun i => rm.contains i) := by
        rw [List.mem_filter]
        exact ⟨hmem, by simpa using hrmem⟩
      have hb4 : (((charIndices tok short).filter
          (fun i => rm.contains i)).length == 0) = false := by
        cases hx : (charIndices tok short).filter (fun i => rm.contains i) with
        | nil => rw [hx] at hcl; cases hcl
        | cons a t => rfl
      simp only [hb4, Bool.false_eq_true, if_false]
      exact ⟨_, _, List.length_pos.mpr (List.ne_nil_of_mem hcl), rfl⟩

/-- Claim C3, counterexample: with tokens `prog -avf`, a counter on `f`
first claims the cluster's final offset; a later required `arg('f')` with
`expect_value = true` scans and reaches the cluster `-avf`, whose last
character is the sought `f`, yet the match does not succeed — `find_match`
yields nothing and the call fails with the missing-argument error instead. -/
theorem valued_run_closed_offset_cex :
    ((from_strings [str "prog", str "-avf"]).bind
      (fun p => (p.count 'f' [] 0 1).map
        (fun r => (r.2, r.1.mask, r.1.run_masks,
          (r.1.args.getD 1 []).getLast?,
          r.1.arg 'f' [] [] true)))) =
      .ok (1, [1], [(1, [1, 2])], some 'f',
           .error (.MissingArgument (str "-f"))) := by decide

/-- Claim C3, amended: for every call to `find_match` with
`expect_value = true` whose ascending scan reaches a cluster token (a
dash-prefixed token longer than two characters that is not long-form and has
no `=` at offset 2, here examined by `matches_short`): if the sought short
character is not the last character of that token, the call fails with the
`ValuedArgInRun` (ambiguous value position) error; if it is the last
character *and the token's final character offset is still open in its Run
State* (in particular whenever the token has no Run State yet), the match
succeeds with a positive run count and a takes-next-token value location —
e.g. tokens `-vxf value` bind `value` to option `f`, while `-vfx value`
fails. -/
theorem valued_run_position_semantics (p : Parser) (idx : Nat) (short : Char)
    (hshort : (short == nulChar) = false)
    (hlen : 2 < (p.args.getD idx []).length)
    (h0 : (p.args.getD idx []).getD 0 nulChar = '-')
    (h1 : ((p.args.getD idx []).getD 1 nulChar == '-') = false)
    (h2 : ((p.args.getD idx []).getD 2 nulChar == '=') = false) :
    (((p.args.getD idx []).getLast? == some short) = false →
      matches_short p idx short true =
        .error (.ValuedArgInRun short (p.args.getD idx []))) ∧
    ((p.args.getD idx []).getLast? = some short → run_last_open p idx = true →
      ∃ q n, 0 < n ∧
        matches_short p idx short true = .ok (q, some ⟨idx, n, .TakesNext⟩)) ∧
    (((from_strings [str "prog", str "-vxf", str "value"]).bind
        (fun q => (q.arg 'f' (str "file") [] true).map (fun r => r.2))) =
      .ok (str "value")) ∧
    (((from_strings [str "prog", str "-vfx", str "value"]).bind
        (fun q => (q.arg 'f' (str "file") [] true).map (fun r => r.2))) =
      .error (.ValuedArgInRun 'f' (str "-vfx"))) := by
  have hrun := matches_short_cluster_is_run p idx short hshort hlen h0 h1 h2
  have hval := handle_run_valued p idx short hlen
  refine ⟨?_, ?_, by decide, by decide⟩
  · intro hlast
    rw [hrun]
    exact hval.1 hlast
  · intro hlast hopen
    rw [hrun]
    exact hval.2 hlast hopen

/-- Claim C3, witness for `valued_run_position_semantics` at the base parser
for tokens `prog -vxf value`, cluster token at position 1, seeking `f`. -/
theorem valued_run_position_semantics_witness :
    ('f' == nulChar) = false ∧
    2 < ((from_strings_base [str "prog", str "-vxf", str "value"]).args.getD 1
      []).length ∧
    ((from_strings_base [str "prog", str "-vxf", str "value"]).args.getD 1
      []).getD 0 nulChar = '-' ∧
    (((from_strings_base [str "prog", str "-vxf", str "value"]).args.getD 1
      []).getD 1 nulChar == '-') = false ∧
    (((from_strings_base [str "prog", str "-vxf", str "value"]).args.getD 1
      []).getD 2 nulChar == '=') = false ∧
    (((from_strings_base [str "prog", str "-vxf", str "value"]).args.getD 1
      []).getLast? = some 'f' → run_last_open
        (from_strings_base [str "prog", str "-vxf", str "value"]) 1 = true →
      ∃ q n, 0 < n ∧
        matches_short (from_strings_base [str "prog", str "-vxf", str "value"])
          1 'f' true = .ok (q, some ⟨1, n, .TakesNext⟩)) := by
  refine ⟨by decide, by decide, by decide, by decide, by decide, ?_⟩
  exact (valued_run_position_semantics
    (from_strings_base [str "prog", str "-vxf", str "value"]) 1 'f'
    (by decide) (by decide) (by decide) (by decide) (by decide)).2.1

theorem matches_short_ddash (p : Parser) (idx : Nat) (short : Char) (ev : Bool)
    (rest : Token) (htok : p.args.getD idx [] = '-' :: '-' :: rest)
    (hrm : rm_lookup p.run_masks idx = none) :
    matches_short p idx short ev = .ok (p, none) := by
  unfold matches_short
  by_cases hs : (short == nulChar) = true
  · simp [hs]
  · simp only [Bool.not_eq_true] at hs
    have htok2 : p.args[idx]?.getD [] = '-' :: '-' :: rest := by
      simpa using htok
    simp [hs, htok, htok2, hrm]

theorem matches_long_eq_suffix (p : Parser) (idx : Nat) (long value : Token)
    (ev : Bool) (hlong : long ≠ [])
    (htok : p.args.getD idx [] = '-' :: '-' :: (long ++ '=' :: value)) :
    matches_long p idx long ev = some ⟨idx, 0, .HasEqual (2 + long.length)⟩ := by
  have hle : long.isEmpty = false := by
    cases long with
    | nil => exact absurd rfl hlong
    | cons a t => rfl
  have hlen : (('-' :: '-' :: (long ++ '=' :: value)) : Token).length
      = long.length + value.length + 3 := by
    simp [List.length_append]
    omega
  have hget : (('-' :: '-' :: (long ++ '=' :: value)) : Token).get?
      (2 + long.length) = some '=' := by
    have h3 : 2 + long.length = long.length + 1 + 1 := by omega
    rw [List.get?_eq_getElem?, h3]
    rw [List.getElem?_cons_succ, List.getElem?_cons_succ]
    rw [List.getElem?_append_right (Nat.le_refl long.length)]
    simp
  unfold matches_long
  simp only [hle, Bool.false_eq_true, if_false]
  rw [htok]
  have h1 : ¬ (('-' :: '-' :: (long ++ '=' :: value)) : Token).length
      < 2 + long.length := by rw [hlen]; omega
  rw [if_neg h1]
  have h2 : ((('-' :: '-' :: (long ++ '=' :: value)) : Token).take 2
      != ['-', '-']) = false := by rfl
  rw [h2]
  simp only [Bool.false_eq_true, if_false]
  have h3 : (((('-' :: '-' :: (long ++ '=' :: value)) : Token).drop 2).take
      long.length != long) = false := by
    show ((long ++ '=' :: value).take long.length != long) = false
    rw [List.take_left long ('=' :: value)]
    simp
  rw [h3]
  simp only [Bool.false_eq_true, if_false]
  have h4 : ((('-' :: '-' :: (long ++ '=' :: value)) : Token).length
      == 2 + long.length) = false := by
    rw [hlen]
    simp only [beq_eq_false_iff_ne, ne_eq]
    omega
  rw [h4]
  simp only [Bool.false_eq_true, if_false]
  rw [hget]
  rfl

theorem matches_long_exact (p : Parser) (idx : Nat) (long : Token)
    (hlong : long ≠ []) (htok : p.args.getD idx [] = '-' :: '-' :: long)
    (hnext : p.mask.contains (idx + 1) = true) :
    matches_long p idx long true = some ⟨idx, 0, .TakesNext⟩ := by
  have hle : long.isEmpty = false := by
    cases long with
    | nil => exact absurd rfl hlong
    | cons a t => rfl
  unfold matches_long
  simp only [hle, Bool.false_eq_true, if_false]
  rw [htok]
  have h1 : ¬ (('-' :: '-' :: long) : Token).length < 2 + long.length := by
    simp only [List.length_cons]
    omega
  rw [if_neg h1]
  have h2 : ((('-' :: '-' :: long) : Token).take 2 != ['-', '-']) = false := rfl
  rw [h2]
  simp only [Bool.false_eq_true, if_false]
  have h3 : (((('-' :: '-' :: long) : Token).drop 2).take long.length
      != long) = false := by
    show (long.take long.length != long) = false
    rw [List.take_length long]
    simp
  rw [h3]
  simp only [Bool.false_eq_true, if_false]
  have h4 : ((('-' :: '-' :: long) : Token).length == 2 + long.length) = true := by
    simp only [List.length_cons, beq_iff_eq]
    omega
  rw [h4]
  simp only [if_true, hnext, Bool.and_self]

/-- Claim C7, counterexample: for the same declaration `arg('f', "file")`,
parsing `--file=-h` binds `-h`, but parsing `--file -h` leaves the target at
its default (`xx`): the implicit help flag claims the `-h` token during
construction and puts the parse into help mode, so the two value spellings
do not produce identical bound values for every value string. -/
theorem equals_vs_next_help_value_cex :
    (((from_strings [str "prog", str "--file=-h"]).bind
      (fun p => (p.arg 'f' (str "file") (str "xx") false).map (fun r => r.2))) =
      .ok (str "-h")) ∧
    (((from_strings [str "prog", str "--file", str "-h"]).bind
      (fun p => (p.arg 'f' (str "file") (str "xx") false).map (fun r => r.2))) =
      .ok (str "xx")) := by
  constructor
  · decide
  · decide

/-- Claim C7, amended: for every value-taking option declaration, supplying
the value as an equals-suffix and as the following token bind identical
constructed values — for any long name and value string, provided
construction leaves both parses in normal (non-help) mode with their tokens
unclaimed, i.e. neither the long name nor the value collides with the
implicit help flag or the argstop sentinel; both parses then bind exactly
`value`. -/
theorem equals_and_next_token_values_agree (long value : Token) (short : Char)
    (into : Token) (required : Bool) (hlong : long ≠ [])
    (h1 : from_strings [str "prog", '-' :: '-' :: (long ++ '=' :: value)] =
      .ok (eq_form_state long value))
    (h2 : from_strings [str "prog", '-' :: '-' :: long, value] =
      .ok (next_form_state long value)) :
    ((eq_form_state long value).arg short long into required).map (fun r => r.2) =
      .ok value ∧
    ((next_form_state long value).arg short long into required).map (fun r => r.2) =
      .ok value := by
  constructor
  · have hms : matches_short (eq_form_state long value) 1 short true =
        .ok (eq_form_state long value, none) :=
      matches_short_ddash _ 1 short true (long ++ '=' :: value) rfl rfl
    have hml : matches_long (eq_form_state long value) 1 long true =
        some ⟨1, 0, .HasEqual (2 + long.length)⟩ :=
      matches_long_eq_suffix _ 1 long value true hlong rfl
    have hfm : find_match (eq_form_state long value) short long true =
        .ok (eq_form_state long value, some ⟨1, 0, .HasEqual (2 + long.length)⟩) := by
      unfold find_match
      show find_match_go short long true (eq_form_state long value) [1] = _
      unfold find_match_go
      rw [hms]
      dsimp only
      rw [hml]
    have hdrop : (('-' :: '-' :: (long ++ '=' :: value)) : Token).drop
        (2 + long.length + 1) = value := by
      have h3 : 2 + long.length + 1 = long.length + 1 + 2 := by omega
      rw [h3]
      simp only [List.drop_succ_cons]
      rw [← List.drop_drop 1 long.length (long ++ '=' :: value)]
      rw [List.drop_left long ('=' :: value)]
      rfl
    have hsi : should_ignore (eq_form_state long value) false = false := rfl
    have hh : (eq_form_state long value).help = false := rfl
    unfold Parser.arg
    rw [hsi, hh]
    simp only [Bool.false_eq_true, if_false]
    rw [hfm]
    dsimp only
    unfold construct_arg
    dsimp only
    rw [show ((eq_form_state long value).args.getD 1 []) =
      ('-' :: '-' :: (long ++ '=' :: value) : Token) from rfl]
    rw [hdrop]
    rfl
  · have hms2 : matches_short (next_form_state long value) 1 short true =
        .ok (next_form_state long value, none) :=
      matches_short_ddash _ 1 short true long rfl rfl
    have hml2 : matches_long (next_form_state long value) 1 long true =
        some ⟨1, 0, .TakesNext⟩ :=
      matches_long_exact _ 1 long hlong rfl rfl
    have hfm2 : find_match (next_form_state long value) short long true =
        .ok (next_form_state long value, some ⟨1, 0, .TakesNext⟩) := by
      unfold find_match
      show find_match_go short long true (next_form_state long value) [1, 2] = _
      unfold find_match_go
      rw [hms2]
      dsimp only
      rw [hml2]
    have hsi : should_ignore (next_form_state long value) false = false := rfl
    have hh : (next_form_state long value).help = false := rfl
    unfold Parser.arg
    rw [hsi, hh]
    simp only [Bool.false_eq_true, if_false]
    rw [hfm2]
    dsimp only
    unfold construct_arg
    dsimp only
    rfl

/-- Claim C7, witness for `equals_and_next_token_values_agree` at
`long = "file"`, `value = "a.txt"`: both `--file=a.txt` and `--file a.txt`
bind `a.txt`. -/
theorem equals_and_next_token_values_agree_witness :
    (str "file" ≠ []) ∧
    (from_strings [str "prog", '-' :: '-' :: (str "file" ++ '=' :: str "a.txt")] =
      .ok (eq_form_state (str "file") (str "a.txt"))) ∧
    (from_strings [str "prog", '-' :: '-' :: str "file", str "a.txt"] =
      .ok (next_form_state (str "file") (str "a.txt"))) ∧
    ((eq_form_state (str "file") (str "a.txt")).arg 'f' (str "file") []
      true).map (fun r => r.2) = .ok (str "a.txt") ∧
    ((next_form_state (str "file") (str "a.txt")).arg 'f' (str "file") []
      true).map (fun r => r.2) = .ok (str "a.txt") := by
  refine ⟨by decide, by decide, by decide, ?_, ?_⟩
  · exact (equals_and_next_token_values_agree (str "file") (str "a.txt") 'f' []
      true (by decide) (by decide) (by decide)).1
  · exact (equals_and_next_token_values_agree (str "file") (str "a.txt") 'f' []
      true (by decide) (by decide) (by decide)).2

/-- Claim C8, counterexample: after a live variadic declaration and an
unmatched subcommand, a second `positional_list` and a subsequent plain
`positional` are not live (`should_ignore` is true), and both return success
as no-ops instead of failing with the multiple-variadic and
ordering-violation errors. -/
theorem variadic_nonlive_noop_cex :
    ((from_strings [str "prog", str "x"]).bind
      (fun p => (p.positional_list (str "files") [] false).bind
        (fun r => (r.1.subcommand (str "s") []).map
          (fun r2 => (r2.1.has_variadic, should_ignore r2.1 false,
            (match r2.1.positional_list (str "more") [] false with
             | .ok (q, v) => (true, q.has_variadic, v)
             | .error _ => (false, false, ([] : List Token))),
            (match r2.1.positional (str "n") (str "d") false with
             | .ok (_, v) => (true, v)
             | .error _ => (false, ([] : Token)))))))) =
      .ok (true, true, (true, true, []), (true, str "d")) := by decide

/-- Claim C8, amended: for every parse in which a variadic positional
collector has already been declared, any second *live* positional_list
declaration fails with the multiple-variadic error and any subsequent *live*
plain positional declaration fails with the ordering-violation error
(declarations whose scope gate rejects them are no-ops); the violations are
permanent for the parse: no binding operation ever clears the variadic flag. -/
theorem variadic_violations_when_live (p : Parser) (name pname : Token)
    (intoL : List Token) (intoT : Token) (required required2 : Bool)
    (hvar : p.has_variadic = true) (hlive : should_ignore p false = false) :
    p.positional_list name intoL required = .error (.MultipleVariadic name) ∧
    p.positional pname intoT required2 = .error (.UnorderedPositionals pname) ∧
    (∀ (q q2 : Parser) (s : Char) (l iT : Token) (r : Bool) (v : Token),
      q.has_variadic = true → q.arg s l iT r = .ok (q2, v) → q2.has_variadic = true) ∧
    (∀ (q q2 : Parser) (s : Char) (l : Token) (iB inv : Bool) (v : Bool),
      q.has_variadic = true → q.flag s l iB inv = .ok (q2, v) → q2.has_variadic = true) ∧
    (∀ (q q2 : Parser) (s : Char) (l : Token) (iI st v : Int),
      q.has_variadic = true → q.count s l iI st = .ok (q2, v) → q2.has_variadic = true) ∧
    (∀ (q q2 : Parser) (s : Char) (l : Token) (iL v : List Token) (r : Bool),
      q.has_variadic = true → Parser.list q s l iL r = .ok (q2, v) →
      q2.has_variadic = true) ∧
    (∀ (q q2 : Parser) (n iT v : Token) (r : Bool),
      q.has_variadic = true → q.positional n iT r = .ok (q2, v) →
      q2.has_variadic = true) ∧
    (∀ (q q2 : Parser) (n : Token) (iL v : List Token) (r : Bool),
      q.has_variadic = true → q.positional_list n iL r = .ok (q2, v) →
      q2.has_variadic = true) ∧
    (∀ (q q2 : Parser) (n : Token),
      q.has_variadic = true → q.group n = .ok q2 → q2.has_variadic = true) ∧
    (∀ (q q2 : Parser) (n : Token) (iL v : List Token),
      q.has_variadic = true → q.subcommand n iL = .ok (q2, v) →
      q2.has_variadic = true) ∧
    (∀ (q q2 : Parser),
      q.has_variadic = true → q.done = .ok q2 → q2.has_variadic = true) := by
  refine ⟨?_, ?_, ?_, ?_, ?_, ?_, ?_, ?_, ?_, ?_, ?_⟩
  · simp [Parser.positional_list, hlive, hvar]
  · simp [Parser.positional, hlive, hvar]
  · exact fun q q2 s l iT r v hq h => (arg_has_variadic _ _ _ _ _ _ _ h).trans hq
  · exact fun q q2 s l iB inv v hq h => (flag_has_variadic _ _ _ _ _ _ _ h).trans hq
  · exact fun q q2 s l iI st v hq h => (count_has_variadic _ _ _ _ _ _ _ h).trans hq
  · exact fun q q2 s l iL v r hq h => (list_has_variadic _ _ _ _ _ _ _ h).trans hq
  · exact fun q q2 n iT v r hq h => (positional_has_variadic _ _ _ _ _ _ h).trans hq
  · exact fun q q2 n iL v r hq h => positional_list_has_variadic_mono _ _ _ _ _ _ hq h
  · exact fun q q2 n hq h => (group_has_variadic _ _ _ h).trans hq
  · exact fun q q2 n iL v hq h => (subcommand_has_variadic _ _ _ _ _ h).trans hq
  · exact fun q q2 hq h => (done_has_variadic _ _ h).trans hq

/-- Claim C8, witness for `variadic_violations_when_live` at a live top-level
parser whose variadic flag is already set. -/
theorem variadic_violations_when_live_witness :
    (⟨[str "prog"], [], [], 0, 0, 0, false, none, false, true, none⟩ :
      Parser).has_variadic = true ∧
    should_ignore
      (⟨[str "prog"], [], [], 0, 0, 0, false, none, false, true, none⟩ : Parser)
      false = false ∧
    (⟨[str "prog"], [], [], 0, 0, 0, false, none, false, true, none⟩ :
      Parser).positional_list (str "files") [] false =
      .error (.MultipleVariadic (str "files")) ∧
    (⟨[str "prog"], [], [], 0, 0, 0, false, none, false, true, none⟩ :
      Parser).positional (str "n") [] false =
      .error (.UnorderedPositionals (str "n")) := by
  refine ⟨by decide, by decide, ?_, ?_⟩
  · exact (variadic_violations_when_live _ (str "files") (str "n") [] [] false false
      (by decide) (by decide)).1
  · exact (variadic_violations_when_live _ (str "files") (str "n") [] [] false false
      (by decide) (by decide)).2.1

/-- Claim C10, counterexample: with tokens `prog -h -h`, construction claims
only the first `-h`; the second `-h` (position 2) is still unclaimed in the
Consumption Mask after construction, contradicting "any unclaimed token
matching `-h` … is removed". -/
theorem help_second_token_unclaimed_cex :
    (from_strings [str "prog", str "-h", str "-h"]).map
      (fun p => (p.mask, p.help, p.args.getD 2 [])) =
      .ok ([2], true, str "-h") := by decide

/-- Claim C10, amended: parser construction itself declares and evaluates the
implicit help flag before any caller binding: the construction outcome is
exactly determined by one `find_match('h', "help")` pass over the base
parser — on no match, the parser is the base state with `help := false`; on
a match, the value location is `Unknown`, the matched position (the first
`-h`/`--help`/cluster-`h` token) is removed from the Consumption Mask, and
`wants_help()` is already true, putting subsequent declarations into
schema-only mode. -/
theorem construction_evaluates_help (input : List Token) (p : Parser)
    (h : from_strings input = .ok p) :
    match find_match (from_strings_base input) 'h' (str "help") false with
    | .ok (q, none) => p = { q with help := false }
    | .ok (q, some fm) => fm.value = .Unknown ∧
        p = { q with mask := maskRemove q.mask fm.index, help := true }
    | .error _ => False := by
  have hsi : should_ignore (from_strings_base input) false = false := by
    simp [should_ignore, from_strings_base]
  have hh : (from_strings_base input).help = false := by simp [from_strings_base]
  unfold from_strings at h
  unfold Parser.flag at h
  simp only [hsi, hh, Bool.false_eq_true, Bool.false_and, if_false] at h
  cases hfm : find_match (from_strings_base input) 'h' (str "help") false with
  | error e =>
    rw [hfm] at h
    simp at h
  | ok pr =>
    obtain ⟨q, m⟩ := pr
    rw [hfm] at h
    cases m with
    | none =>
      simp only [Except.ok.injEq] at h
      simp only
      exact h.symm
    | some fm =>
      cases hv : fm.value with
      | Unknown =>
        dsimp only at h
        rw [hv] at h
        dsimp only at h
        simp only [Except.ok.injEq] at h
        exact ⟨hv, h.symm⟩
      | TakesNext =>
        dsimp only at h
        rw [hv] at h
        simp at h
      | HasEqual off =>
        dsimp only at h
        rw [hv] at h
        simp at h

/-- Claim C10, witness for `construction_evaluates_help` at tokens
`prog -h`. -/
theorem construction_evaluates_help_witness :
    from_strings [str "prog", str "-h"] =
      .ok ⟨[str "prog", str "-h"], [], [], 0, 0, 0, false, none, true, false, none⟩ ∧
    (match find_match (from_strings_base [str "prog", str "-h"]) 'h' (str "help") false with
     | .ok (q, none) =>
        (⟨[str "prog", str "-h"], [], [], 0, 0, 0, false, none, true, false, none⟩ :
          Parser) = { q with help := false }
     | .ok (q, some fm) => fm.value = .Unknown ∧
        (⟨[str "prog", str "-h"], [], [], 0, 0, 0, false, none, true, false, none⟩ :
          Parser) = { q with mask := maskRemove q.mask fm.index, help := true }
     | .error _ => False) := by
  refine ⟨by decide, ?_⟩
  exact construction_evaluates_help [str "prog", str "-h"] _ (by decide)

end Rags
